import Mathlib

/-
Verification development for the stock-cli terminal dashboard.

The repository polls the Upbit crypto API (price.py, graph.py) and the
yfinance stock library (price_stock.py) for configured symbols, and renders
the results as a live table plus candle charts.  This file gives a shallow
embedding of the data model and of the functions the specification talks
about, in the following style:

* JSON objects returned by the upstream API are association lists of
  string keys to `Value` (a number, a string, or null).  Python's
  `dict.get(k, default)` is `jget`; `dict[k]` is modelled as an
  `Except`-valued lookup raising KeyError when the key is absent.
* Python numbers are modelled exactly as rationals.  To keep every
  definition evaluable by the kernel they are carried as unnormalized
  numerator/denominator pairs (`PyNum`) with cross-multiplication
  comparisons; the denominator is positive for every number the embedded
  code constructs.  Division by zero raises (ZeroDivisionError), as for
  Python numbers.
* Fallible Python code is modelled in `Except String`; a try/except that
  swallows all exceptions becomes a total function that maps any
  `Except.error` to the handler's `None` result.
* Python `f"{x:.2f}"` style formatting is reproduced digit for digit
  (round half to even, optional thousands grouping, 2-digit padding).
* `asyncio.gather` on a task list is positional: the i-th entry of its
  result is the result of the i-th task regardless of the order in which
  tasks complete.  Completion order is modelled explicitly as a
  permutation of task indices, and collecting results by index is proved
  to be independent of that permutation.
-/

/-- An exact rational carried as an unnormalized numerator/denominator pair.
All constructions in this file keep the denominator positive. -/
structure PyNum where
  nm : ℤ
  dn : ℕ
deriving DecidableEq, Repr

instance (n : ℕ) : OfNat PyNum n := ⟨⟨Int.ofNat n, 1⟩⟩

instance : Neg PyNum := ⟨fun a => ⟨-a.nm, a.dn⟩⟩

instance : Mul PyNum := ⟨fun a b => ⟨a.nm * b.nm, a.dn * b.dn⟩⟩

instance : Sub PyNum := ⟨fun a b => ⟨a.nm * b.dn - b.nm * a.dn, a.dn * b.dn⟩⟩

/-- Exact division; the sign of the divisor moves to the numerator so the
denominator stays a natural number.  Only reached under a zero test on the
divisor. -/
instance : Div PyNum :=
  ⟨fun a b =>
    if b.nm < 0 then ⟨-(a.nm * b.dn), a.dn * b.nm.natAbs⟩
    else ⟨a.nm * b.dn, a.dn * b.nm.natAbs⟩⟩

instance : LT PyNum := ⟨fun a b => a.nm * (b.dn : ℤ) < b.nm * (a.dn : ℤ)⟩

instance : LE PyNum := ⟨fun a b => a.nm * (b.dn : ℤ) ≤ b.nm * (a.dn : ℤ)⟩

instance (a b : PyNum) : Decidable (a < b) := by
  change Decidable (a.nm * (b.dn : ℤ) < b.nm * (a.dn : ℤ))
  infer_instance

instance (a b : PyNum) : Decidable (a ≤ b) := by
  change Decidable (a.nm * (b.dn : ℤ) ≤ b.nm * (a.dn : ℤ))
  infer_instance

/-- Is the number exactly zero?  (The denominator is positive, so this is
zero of the numerator.) -/
def PyNum.isZero (a : PyNum) : Bool := a.nm = 0

/-- Mathematical floor of the carried rational (denominator positive). -/
def PyNum.floorInt (a : PyNum) : ℤ := Int.fdiv a.nm (a.dn : ℤ)

/-- A JSON scalar as handled by the table code: a number (Python int/float,
modelled exactly), a string, or null (Python None).  The code's
`isinstance(x, (int, float))` test is `Value.isNum`. -/
inductive Value where
  | num (q : PyNum)
  | str (s : String)
  | null
deriving DecidableEq, Repr

/-- A JSON object: association list from keys to values, first binding wins. -/
def Json : Type := List (String × Value)

instance : DecidableEq Json := by
  unfold Json
  infer_instance

/-- Lookup in an association list (Python `d[k]` yields the value when the key
is present, else KeyError; this returns the corresponding Option). -/
def dlookup {α : Type} (d : List (String × α)) (k : String) : Option α :=
  match d with
  | [] => none
  | p :: rest => if p.1 = k then some p.2 else dlookup rest k

/-- Python `dict.get(k, default)`. -/
def jget (t : Json) (k : String) (dflt : Value) : Value :=
  (dlookup t k).getD dflt

/-- Python `d[k] = v` on an association list: replace in place if the key
exists, else append (insertion order preserved, as for Python dicts). -/
def dinsert {α : Type} (d : List (String × α)) (k : String) (v : α) : List (String × α) :=
  match d with
  | [] => [(k, v)]
  | p :: rest => if p.1 = k then (k, v) :: rest else p :: dinsert rest k v

/-- Does the value pass `isinstance(x, (int, float))`? -/
def Value.isNum : Value → Bool
  | Value.num _ => true
  | _ => false

/-- Round a rational to an integer, half to even, as Python `format` does. -/
def roundHalfEven (x : PyNum) : ℤ :=
  let f := x.floorInt
  let r := x - ⟨f, 1⟩
  if r < ⟨1, 2⟩ then f
  else if (⟨1, 2⟩ : PyNum) < r then f + 1
  else if f % 2 = 0 then f else f + 1

/-- Two-digit zero-padded rendering of a fractional part. -/
def pad2 (n : ℕ) : String :=
  if n < 10 then "0" ++ toString n else toString n

/-- Insert a comma after every three characters of a reversed digit list
(thousands grouping, working from the least significant digit). -/
def commaRev : List Char → List Char
  | [] => []
  | [a] => [a]
  | [a, b] => [a, b]
  | [a, b, c] => [a, b, c]
  | a :: b :: c :: rest => a :: b :: c :: ',' :: commaRev rest

/-- Thousands-grouped decimal rendering of a natural number. -/
def commaFmt (n : ℕ) : String :=
  String.mk (commaRev (toString n).data.reverse).reverse

/-- Python `f"{q:.2f}"` over exact rationals (sign kept even when the
magnitude rounds to zero, as Python prints "-0.00"). -/
def fmt2 (q : PyNum) : String :=
  let m := (roundHalfEven (q * 100)).natAbs
  (if q < 0 then "-" else "") ++ toString (m / 100) ++ "." ++ pad2 (m % 100)

/-- Python `f"{q:,.0f}"`. -/
def fmtComma0 (q : PyNum) : String :=
  (if q < 0 then "-" else "") ++ commaFmt (roundHalfEven q).natAbs

/-- Python `f"{q:,.2f}"`. -/
def fmtComma2 (q : PyNum) : String :=
  let m := (roundHalfEven (q * 100)).natAbs
  (if q < 0 then "-" else "") ++ commaFmt (m / 100) ++ "." ++ pad2 (m % 100)

/-- The symbol cell: `ticker.get("market", "N/A")` is handed to the renderer
as-is.  Strings pass through; no claim depends on non-string symbol values,
which we render via their numeric text here. -/
def symCell (v : Value) : String :=
  match v with
  | Value.str s => s
  | Value.num q => fmt2 q
  | Value.null => "None"

/-- Price-style cell of price.py / graph.py:
`f"{x:,.0f} KRW" if isinstance(x, (int, float)) else "N/A"`. -/
def priceKRWCell (v : Value) : String :=
  match v with
  | Value.num q => fmtComma0 q ++ " KRW"
  | _ => "N/A"

/-- Volume cell of price.py / graph.py:
`f"{x:,.2f}" if isinstance(x, (int, float)) else "N/A"`. -/
def volumeCell (v : Value) : String :=
  match v with
  | Value.num q => fmtComma2 q
  | _ => "N/A"

/-- The change display string for an already-multiplied rate:
`change_color = "green dim" if change_rate >= 0 else "red dim"` followed by
`f"[{change_color}]{change_rate:.2f}%[/{change_color}]"`. -/
def changeDisplayOf (r : PyNum) : String :=
  let c := if 0 ≤ r then "green dim" else "red dim"
  "[" ++ c ++ "]" ++ fmt2 r ++ "%[/" ++ c ++ "]"

/-- The change cell computation on the raw value of
`ticker.get("signed_change_rate", 0.0)`.  For a number the code computes
`value * 100` and formats it.  For a string, `s * 100` is string repetition
and the subsequent `change_rate >= 0` comparison raises TypeError; for null,
`None * 100` raises TypeError.  The exception escapes `create_table` (there
is no guard on this field). -/
def changeCell (v : Value) : Except String String :=
  match v with
  | Value.num q => Except.ok (changeDisplayOf (q * 100))
  | Value.str _ => Except.error "TypeError: unorderable str and int"
  | Value.null => Except.error "TypeError: NoneType times int"

instance {ε α : Type} [DecidableEq ε] [DecidableEq α] : DecidableEq (Except ε α) := fun x y =>
  match x, y with
  | Except.ok a, Except.ok b =>
    if h : a = b then isTrue (by rw [h]) else isFalse (by simp [h])
  | Except.error e, Except.error f =>
    if h : e = f then isTrue (by rw [h]) else isFalse (by simp [h])
  | Except.ok _, Except.error _ => isFalse (by simp)
  | Except.error _, Except.ok _ => isFalse (by simp)

/-- Effectful map over a list in `Except`, evaluating left to right and
propagating the first error, as a Python loop or comprehension does. -/
def mapExcept {α β : Type} (f : α → Except String β) : List α → Except String (List β)
  | [] => Except.ok []
  | a :: t =>
    match f a, mapExcept f t with
    | Except.ok b, Except.ok bs => Except.ok (b :: bs)
    | Except.error e, _ => Except.error e
    | Except.ok _, Except.error e => Except.error e

/-- The all-placeholder row emitted for a missing ticker (price.py). -/
def naRow : List String := ["N/A", "N/A", "N/A", "N/A", "N/A", "N/A"]

/-- One data row of price.py / graph.py `create_table` for a present ticker
dict: reads the six fields with their defaults, computes the change display
(which may raise), and formats the remaining cells defensively. -/
def rowOfTicker (t : Json) : Except String (List String) :=
  (changeCell (jget t "signed_change_rate" (Value.num 0))).map (fun change =>
    [symCell (jget t "market" (Value.str "N/A")),
     priceKRWCell (jget t "trade_price" (Value.str "N/A")),
     change,
     volumeCell (jget t "trade_volume" (Value.num 0)),
     priceKRWCell (jget t "high_price" (Value.str "N/A")),
     priceKRWCell (jget t "low_price" (Value.str "N/A"))])

/-- price.py / graph.py `create_table`: one row per input entry, in order;
a `None` ticker yields the all-placeholder row.  The result is the list of
row cell strings (title and column headers carry no per-ticker data). -/
def create_table (tickers : List (Option Json)) : Except String (List (List String)) :=
  mapExcept (fun o =>
    match o with
    | none => Except.ok naRow
    | some t => rowOfTicker t) tickers

/-- A pandas/numpy float64 as stored in the DataFrame cells the stock
variant reads: a finite value (modelled exactly), an infinity, or NaN.
Arithmetic follows IEEE-754 numpy scalar semantics — in particular division
by zero yields an infinity or NaN with a RuntimeWarning, it does NOT raise.
(Signed zeros are not modelled; the frame's 0.0 is +0, which is the case the
source can hit.) -/
inductive PFloat where
  | num (q : PyNum)
  | inf
  | ninf
  | nan
deriving DecidableEq, Repr

/-- IEEE subtraction on float64 values. -/
def PFloat.sub : PFloat → PFloat → PFloat
  | PFloat.nan, _ => PFloat.nan
  | _, PFloat.nan => PFloat.nan
  | PFloat.inf, PFloat.inf => PFloat.nan
  | PFloat.inf, _ => PFloat.inf
  | PFloat.ninf, PFloat.ninf => PFloat.nan
  | PFloat.ninf, _ => PFloat.ninf
  | PFloat.num _, PFloat.inf => PFloat.ninf
  | PFloat.num _, PFloat.ninf => PFloat.inf
  | PFloat.num a, PFloat.num b => PFloat.num (a - b)

/-- IEEE division on float64 values: finite/±0 is ±inf by the sign of the
dividend, 0/0 is NaN — numpy emits a warning, no exception. -/
def PFloat.div : PFloat → PFloat → PFloat
  | PFloat.nan, _ => PFloat.nan
  | _, PFloat.nan => PFloat.nan
  | PFloat.inf, PFloat.inf => PFloat.nan
  | PFloat.inf, PFloat.ninf => PFloat.nan
  | PFloat.ninf, PFloat.inf => PFloat.nan
  | PFloat.ninf, PFloat.ninf => PFloat.nan
  | PFloat.inf, PFloat.num b => if b.nm < 0 then PFloat.ninf else PFloat.inf
  | PFloat.ninf, PFloat.num b => if b.nm < 0 then PFloat.inf else PFloat.ninf
  | PFloat.num _, PFloat.inf => PFloat.num ⟨0, 1⟩
  | PFloat.num _, PFloat.ninf => PFloat.num ⟨0, 1⟩
  | PFloat.num a, PFloat.num b =>
    if b.isZero then
      (if a.isZero then PFloat.nan else if a.nm < 0 then PFloat.ninf else PFloat.inf)
    else PFloat.num (a / b)

/-- IEEE multiplication on float64 values. -/
def PFloat.mul : PFloat → PFloat → PFloat
  | PFloat.nan, _ => PFloat.nan
  | _, PFloat.nan => PFloat.nan
  | PFloat.inf, PFloat.inf => PFloat.inf
  | PFloat.inf, PFloat.ninf => PFloat.ninf
  | PFloat.ninf, PFloat.inf => PFloat.ninf
  | PFloat.ninf, PFloat.ninf => PFloat.inf
  | PFloat.inf, PFloat.num b =>
    if b.isZero then PFloat.nan else if b.nm < 0 then PFloat.ninf else PFloat.inf
  | PFloat.num a, PFloat.inf =>
    if a.isZero then PFloat.nan else if a.nm < 0 then PFloat.ninf else PFloat.inf
  | PFloat.ninf, PFloat.num b =>
    if b.isZero then PFloat.nan else if b.nm < 0 then PFloat.inf else PFloat.ninf
  | PFloat.num a, PFloat.ninf =>
    if a.isZero then PFloat.nan else if a.nm < 0 then PFloat.inf else PFloat.ninf
  | PFloat.num a, PFloat.num b => PFloat.num (a * b)

/-- Python `x >= 0` on a float64: infinity compares true, negative infinity
and NaN compare false (any comparison with NaN is False). -/
def PFloat.geZero : PFloat → Bool
  | PFloat.num q => decide ((0 : PyNum) ≤ q)
  | PFloat.inf => true
  | PFloat.ninf => false
  | PFloat.nan => false

/-- Is the value one of the IEEE specials (±inf, NaN)? -/
def PFloat.isSpecial : PFloat → Bool
  | PFloat.num _ => false
  | _ => true

/-- Python `f"{x:.2f}"` on a float64: specials print as "inf"/"-inf"/"nan". -/
def fmt2F : PFloat → String
  | PFloat.num q => fmt2 q
  | PFloat.inf => "inf"
  | PFloat.ninf => "-inf"
  | PFloat.nan => "nan"

/-- Python `f"{x:,.2f}"` on a float64. -/
def fmtComma2F : PFloat → String
  | PFloat.num q => fmtComma2 q
  | PFloat.inf => "inf"
  | PFloat.ninf => "-inf"
  | PFloat.nan => "nan"

/-- Python `f"{x:,.0f}"` on a float64. -/
def fmtComma0F : PFloat → String
  | PFloat.num q => fmtComma0 q
  | PFloat.inf => "inf"
  | PFloat.ninf => "-inf"
  | PFloat.nan => "nan"

/-- A value in the dict the stock fetch hands to the stock Presenter: a
float64 (which passes `isinstance(x, (int, float))` — numpy float64
subclasses float, and so do inf/nan), a string, or null. -/
inductive SValue where
  | fl (x : PFloat)
  | str (s : String)
  | null
deriving DecidableEq, Repr

/-- Python `dict.get(k, default)` on a stock ticker dict. -/
def sget (t : List (String × SValue)) (k : String) (dflt : SValue) : SValue :=
  (dlookup t k).getD dflt

/-- The symbol cell of price_stock.py: `ticker.get("symbol", "N/A")` handed
to the renderer as-is (strings pass through; no claim depends on the other
shapes). -/
def symCellS (v : SValue) : String :=
  match v with
  | SValue.str s => s
  | SValue.fl x => fmt2F x
  | SValue.null => "None"

/-- Cell of price_stock.py create_table formatted with
`f"{x:,.2f}" if isinstance(x, (int, float)) else "N/A"` (yesterday, today,
high, low).  Float64 specials pass the isinstance guard and format as
"inf"/"-inf"/"nan". -/
def stockPriceCell (v : SValue) : String :=
  match v with
  | SValue.fl x => fmtComma2F x
  | _ => "N/A"

/-- Volume cell of price_stock.py create_table:
`f"{x:,.0f}" if isinstance(x, (int, float)) else "N/A"`. -/
def stockVolumeCell (v : SValue) : String :=
  match v with
  | SValue.fl x => fmtComma0F x
  | _ => "N/A"

/-- The all-placeholder row of price_stock.py (seven columns). -/
def naRow7 : List String := ["N/A", "N/A", "N/A", "N/A", "N/A", "N/A", "N/A"]

/-- The change display of price_stock.py: the stored rate is already a
percentage, styled by `change_rate >= 0` (NaN styles negative, since any
comparison with NaN is False) and formatted with `.2f` — so an infinite or
NaN rate renders as a styled "inf%"/"-inf%"/"nan%" cell. -/
def changeDisplayStock (x : PFloat) : String :=
  let c := if x.geZero then "green dim" else "red dim"
  "[" ++ c ++ "]" ++ fmt2F x ++ "%[/" ++ c ++ "]"

/-- Change cell of price_stock.py on the raw `ticker.get("change_rate", 0.0)`
value: floats (specials included) are styled and formatted; as in the crypto
variant there is no numeric guard, so a string or null value makes
`change_rate >= 0` raise TypeError. -/
def stockChangeCell (v : SValue) : Except String String :=
  match v with
  | SValue.fl x => Except.ok (changeDisplayStock x)
  | SValue.str _ => Except.error "TypeError: unorderable str and int"
  | SValue.null => Except.error "TypeError: NoneType order comparison"

/-- price_stock.py `create_table`: one row per entry, `None` yields the
seven-column placeholder row. -/
def create_table_stock (tickers : List (Option (List (String × SValue)))) :
    Except String (List (List String)) :=
  mapExcept (fun o =>
    match o with
    | none => Except.ok naRow7
    | some t =>
      (stockChangeCell (sget t "change_rate" (SValue.fl (PFloat.num ⟨0, 1⟩)))).map
        (fun change =>
          [symCellS (sget t "symbol" (SValue.str "N/A")),
           stockPriceCell (sget t "yesterday" (SValue.str "N/A")),
           stockPriceCell (sget t "today" (SValue.str "N/A")),
           change,
           stockVolumeCell (sget t "volume" (SValue.fl (PFloat.num ⟨0, 1⟩))),
           stockPriceCell (sget t "high" (SValue.str "N/A")),
           stockPriceCell (sget t "low" (SValue.str "N/A"))])) tickers

/-- The change-rate computation of price_stock.py line 50:
`((today_price - yesterday_price) / yesterday_price) * 100` over float64
values — no guard, no exception: a zero `yesterday_price` produces an
infinity or NaN. -/
def stockChange (y t : PFloat) : PFloat :=
  ((t.sub y).div y).mul (PFloat.num ⟨100, 1⟩)

/-- The dict price_stock.py `fetch_ticker` returns on success. -/
def stockTicker (symbol : String) (y t h l v : PFloat) : List (String × SValue) :=
  [("symbol", SValue.str symbol),
   ("yesterday", SValue.fl y),
   ("today", SValue.fl t),
   ("change_rate", SValue.fl (stockChange y t)),
   ("volume", SValue.fl v),
   ("high", SValue.fl h),
   ("low", SValue.fl l)]

/-- Body of price_stock.py `fetch_ticker` inside the try block, as a function
of the history rows the yfinance call returned (each a mapping from column
name to float64).  `data.empty` returns None without raising; a missing
column raises KeyError; the change-rate arithmetic is float64 arithmetic and
never raises — a zero opening value silently yields ±inf or NaN.  Field
reads happen in source order (Open, Close, High, Low, Volume) before the
change-rate computation. -/
def stockFetchBody (symbol : String) (data : List (List (String × PFloat))) :
    Except String (Option (List (String × SValue))) :=
  if data.isEmpty then Except.ok none
  else
    match dlookup (data.getLastD []) "Open" with
    | none => Except.error "KeyError: Open"
    | some yesterday =>
      match dlookup (data.getLastD []) "Close" with
      | none => Except.error "KeyError: Close"
      | some today =>
        match dlookup (data.getLastD []) "High" with
        | none => Except.error "KeyError: High"
        | some high =>
          match dlookup (data.getLastD []) "Low" with
          | none => Except.error "KeyError: Low"
          | some low =>
            match dlookup (data.getLastD []) "Volume" with
            | none => Except.error "KeyError: Volume"
            | some volume =>
              Except.ok (some (stockTicker symbol yesterday today high low volume))

/-- price_stock.py `fetch_ticker`: the catch-all except block turns every
raised exception into a logged None. -/
def fetch_ticker_stock (symbol : String) (data : List (List (String × PFloat))) :
    Option (List (String × SValue)) :=
  match stockFetchBody symbol data with
  | Except.ok r => r
  | Except.error _ => none

/-- One observable outcome of an HTTP GET in price.py / graph.py: the
request raised (client error, timeout, or anything else), or it produced a
response with a status code and a decoded JSON array body. -/
inductive UpstreamOutcome where
  | clientError
  | timeoutErr
  | otherErr
  | response (status : ℕ) (body : List Json)
deriving DecidableEq

/-- Body of price.py `fetch_ticker` inside the try block: status 200 with a
non-empty array yields `data[0]`; empty array and non-200 status return None
without raising; transport failures raise. -/
def fetchTickerBody : UpstreamOutcome → Except String (Option Json)
  | UpstreamOutcome.clientError => Except.error "aiohttp.ClientError"
  | UpstreamOutcome.timeoutErr => Except.error "asyncio.TimeoutError"
  | UpstreamOutcome.otherErr => Except.error "Exception"
  | UpstreamOutcome.response status body =>
    if status = 200 then
      match body with
      | [] => Except.ok none
      | j :: _ => Except.ok (some j)
    else Except.ok none

/-- price.py / graph.py `fetch_ticker`: every exception class is caught and
converted to a logged None. -/
def fetch_ticker (o : UpstreamOutcome) : Option Json :=
  match fetchTickerBody o with
  | Except.ok r => r
  | Except.error _ => none

/-- Body of graph.py `fetch_candles` inside the try block: status 200 with a
non-empty array yields the whole array; empty array and non-200 status
return None; transport failures raise. -/
def fetchCandlesBody : UpstreamOutcome → Except String (Option (List Json))
  | UpstreamOutcome.clientError => Except.error "aiohttp.ClientError"
  | UpstreamOutcome.timeoutErr => Except.error "asyncio.TimeoutError"
  | UpstreamOutcome.otherErr => Except.error "Exception"
  | UpstreamOutcome.response status body =>
    if status = 200 then
      match body with
      | [] => Except.ok none
      | j :: js => Except.ok (some (j :: js))
    else Except.ok none

/-- graph.py `fetch_candles`: every exception class is caught and converted
to a logged None. -/
def fetch_candles (o : UpstreamOutcome) : Option (List Json) :=
  match fetchCandlesBody o with
  | Except.ok r => r
  | Except.error _ => none

/-- price.py / price_stock.py / graph.py `fetch_all_tickers`: tasks are
created in symbol order and `asyncio.gather` returns their results
positionally, so the result is the per-symbol fetch outcome in input order.
The per-symbol outcome is abstracted as a function `fetch`. -/
def fetch_all_tickers (fetch : String → Option Json) (symbols : List String) :
    List (Option Json) :=
  symbols.map fetch

/-- Completion events of a batch of tasks: `order` lists task indices in the
order the event loop finishes them; each event carries the finished task's
result. -/
def gatherEvents {α : Type} (tasks : List α) (order : List ℕ) : List (ℕ × α) :=
  order.filterMap (fun i => (tasks[i]?).map (fun a => (i, a)))

/-- What `asyncio.gather` does with completion events: slot each result into
the position of its task index. -/
def collectByIndex {α : Type} (n : ℕ) (events : List (ℕ × α)) : List (Option α) :=
  (List.range n).map (fun i => (events.find? (fun e => e.1 == i)).map (fun e => e.2))

/-- graph.py `candle["trade_price"]`: dict subscript, KeyError when absent. -/
def tradePriceOf (c : Json) : Except String Value :=
  match dlookup c "trade_price" with
  | some v => Except.ok v
  | none => Except.error "KeyError: trade_price"

/-- graph.py line
`closing_prices = [candle["trade_price"] for candle in reversed(candles)]`. -/
def closing_prices (candles : List Json) : Except String (List Value) :=
  mapExcept tradePriceOf candles.reverse

/-- graph.py `create_plotille_line_chart`: an empty price list short-circuits
to the no-data literal; otherwise the plotille figure (external library,
abstracted as `plot`) renders the prices at the given size. -/
def create_plotille_line_chart (plot : List Value → ℕ → ℕ → String)
    (prices : List Value) (width height : ℕ) : String :=
  if prices.isEmpty then "데이터 없음" else plot prices width height

/-- The observable content of a rich Panel built by graph.py: its body text,
title, and border style. -/
structure PanelModel where
  content : String
  title : String
  border : String
deriving DecidableEq

/-- graph.py `create_plot_graph_panel`: a missing Series yields the literal
placeholder panel; a present Series has its closing prices extracted in
chronological order (KeyError propagates) and rendered through the chart
function. -/
def create_plot_graph_panel (plot : List Value → ℕ → ℕ → String)
    (symbol timeframe : String) (candles : Option (List Json))
    (width height : ℕ) : Except String PanelModel :=
  match candles with
  | none => Except.ok ⟨"데이터 없음", symbol ++ " - " ++ timeframe, "blue"⟩
  | some cs =>
    (closing_prices cs).map (fun closes =>
      ⟨create_plotille_line_chart plot closes width height,
       symbol ++ " - " ++ timeframe, "blue"⟩)

/-- A chart timeframe as configured: display name, candle unit in minutes,
window length. -/
structure Timeframe where
  name : String
  unit : ℕ
  count : ℕ
deriving DecidableEq

/-- Python `candle_data[symbol][key] = v` when the outer dict maps `symbol`
to an inner dict: update every binding of `symbol` (there is at most one) by
inserting into its inner dict.  (If `symbol` were absent Python would raise
KeyError; in `fetch_all_candles` the first loop has always inserted it.) -/
def setInner {β : Type} (d : List (String × List (String × β))) (s k : String) (v : β) :
    List (String × List (String × β)) :=
  d.map (fun p => if p.1 = s then (p.1, dinsert p.2 k v) else p)

/-- The first loop of graph.py `fetch_all_candles`:
`for symbol in symbols: candle_data[symbol] = {}`. -/
def initOuter (symbols : List String) : List (String × List (String × Option (List Json))) :=
  symbols.foldl (fun d s => dinsert d s []) []

/-- One symbol's slice of the assignment loop: for each timeframe in order,
`candle_data[s][timeframe["name"]] = fetch(s, unit, count)`. -/
def assignPass (fetch : String → ℕ → ℕ → Option (List Json)) (timeframes : List Timeframe)
    (s : String) (d : List (String × List (String × Option (List Json)))) :
    List (String × List (String × Option (List Json))) :=
  timeframes.foldl (fun d tf => setInner d s tf.name (fetch s tf.unit tf.count)) d

/-- The full assignment loop over every symbol in order. -/
def assignRun (fetch : String → ℕ → ℕ → Option (List Json)) (timeframes : List Timeframe)
    (symbols : List String) (d : List (String × List (String × Option (List Json)))) :
    List (String × List (String × Option (List Json))) :=
  symbols.foldl (fun d s => assignPass fetch timeframes s d) d

/-- graph.py `fetch_all_candles`: builds `candle_data[symbol] = {}` for every
symbol, launches one `fetch_candles` task per (symbol, timeframe) pair in
nested order, gathers positionally, and assigns
`candle_data[symbol][timeframe["name"]] = results[i]`.  Because gather is
positional, `results[i]` is exactly the fetch outcome of the i-th task's
pair, so the assignment loop is the fold below. -/
def fetch_all_candles (fetch : String → ℕ → ℕ → Option (List Json))
    (symbols : List String) (timeframes : List Timeframe) :
    List (String × List (String × Option (List Json))) :=
  let tasks := symbols.flatMap (fun s => timeframes.map (fun tf => (s, tf)))
  tasks.foldl (fun d p => setInner d p.1 p.2.name (fetch p.1 p.2.unit p.2.count))
    (initOuter symbols)

/-- C4: `create_table` renders a `signed_change_rate` of -0.0123 as the cell
"-1.23%" wrapped in the negative style "red dim", and 0.045 as "4.50%" in
the non-negative style "green dim"; in general the rate is multiplied by
100, formatted with two decimals, and the style is chosen by `rate >= 0`. -/
theorem spec_C4 :
    create_table [some [("market", Value.str "KRW-BTC"),
        ("trade_price", Value.num ⟨50000000, 1⟩),
        ("signed_change_rate", Value.num ⟨-123, 10000⟩),
        ("trade_volume", Value.num ⟨10, 1⟩),
        ("high_price", Value.num ⟨51000000, 1⟩),
        ("low_price", Value.num ⟨49000000, 1⟩)]] =
      Except.ok [["KRW-BTC", "50,000,000 KRW", "[red dim]-1.23%[/red dim]", "10.00",
        "51,000,000 KRW", "49,000,000 KRW"]] ∧
    create_table [some [("market", Value.str "KRW-ETH"),
        ("trade_price", Value.num ⟨3500000, 1⟩),
        ("signed_change_rate", Value.num ⟨45, 1000⟩),
        ("trade_volume", Value.num ⟨250, 10⟩)]] =
      Except.ok [["KRW-ETH", "3,500,000 KRW", "[green dim]4.50%[/green dim]", "25.00",
        "N/A", "N/A"]] ∧
    (∀ q : PyNum, changeCell (Value.num q) =
      Except.ok ("[" ++ (if 0 ≤ q * 100 then "green dim" else "red dim") ++ "]" ++
        fmt2 (q * 100) ++ "%[/" ++
        (if 0 ≤ q * 100 then "green dim" else "red dim") ++ "]")) := by
  refine ⟨by decide, by decide, ?_⟩
  intro q
  show Except.ok (changeDisplayOf (q * 100)) = _
  unfold changeDisplayOf
  by_cases h : (0 : PyNum) ≤ q * 100 <;> simp [h]

/-- C5: a present ticker with a missing or non-numeric `trade_price` gets
the literal "N/A" in its price cell; the price-cell formatting is total (it
cannot raise), and whenever the row is produced at all its second cell is
"N/A". -/
theorem spec_C5 (t : Json)
    (h : ∀ v, dlookup t "trade_price" = some v → v.isNum = false) :
    priceKRWCell (jget t "trade_price" (Value.str "N/A")) = "N/A" ∧
    (∀ row, rowOfTicker t = Except.ok row → row.get? 1 = some "N/A") := by
  have hcell : priceKRWCell (jget t "trade_price" (Value.str "N/A")) = "N/A" := by
    unfold jget
    cases hl : dlookup t "trade_price" with
    | none => rfl
    | some v =>
      have hv := h v hl
      cases v with
      | num q => simp [Value.isNum] at hv
      | str s => rfl
      | null => rfl
  refine ⟨hcell, ?_⟩
  intro row hrow
  unfold rowOfTicker at hrow
  cases hc : changeCell (jget t "signed_change_rate" (Value.num 0)) with
  | error e => rw [hc] at hrow; simp [Except.map] at hrow
  | ok c =>
    rw [hc] at hrow
    simp only [Except.map, Except.ok.injEq] at hrow
    rw [← hrow]
    simp [hcell]

/-- Witness for C5 at a ticker whose `trade_price` is null. -/
theorem spec_C5_witness :
    priceKRWCell (jget [("trade_price", Value.null)] "trade_price" (Value.str "N/A")) = "N/A" ∧
    (∀ row, rowOfTicker [("trade_price", Value.null)] = Except.ok row →
      row.get? 1 = some "N/A") :=
  spec_C5 [("trade_price", Value.null)] (by
    intro v hv
    simp [dlookup] at hv
    subst hv
    rfl)

/-- C7: for every upstream outcome, `fetch_ticker` and `fetch_candles`
either classify the call as a failure (transport error, timeout, other
exception, non-success status, or empty payload) and return the explicit
no-data outcome `none`, or the call was a status-200 response with a
non-empty payload and they return its data; no fault ever propagates to the
caller. -/
theorem spec_C7 (o : UpstreamOutcome) :
    (fetch_ticker o = none ∧ fetch_candles o = none) ∨
    (∃ j js, o = UpstreamOutcome.response 200 (j :: js) ∧
      fetch_ticker o = some j ∧ fetch_candles o = some (j :: js)) := by
  cases o with
  | clientError => exact Or.inl ⟨rfl, rfl⟩
  | timeoutErr => exact Or.inl ⟨rfl, rfl⟩
  | otherErr => exact Or.inl ⟨rfl, rfl⟩
  | response status body =>
    by_cases h : status = 200
    · subst h
      cases body with
      | nil => exact Or.inl ⟨rfl, rfl⟩
      | cons j js =>
        exact Or.inr ⟨j, js, rfl, rfl, rfl⟩
    · refine Or.inl ⟨?_, ?_⟩ <;>
        simp [fetch_ticker, fetchTickerBody, fetch_candles, fetchCandlesBody, h]

lemma mul100_special (x : PFloat) (hx : x.isSpecial = true) :
    (x.mul (PFloat.num ⟨100, 1⟩)).isSpecial = true := by
  cases x with
  | num q => simp [PFloat.isSpecial] at hx
  | inf => decide
  | ninf => decide
  | nan => decide

lemma divZero_special (s : PFloat) (q : PyNum) (hq : q.isZero = true) :
    (s.div (PFloat.num q)).isSpecial = true := by
  have h0 : ¬(q.nm < 0) := by
    have hq0 : q.nm = 0 := by simpa [PyNum.isZero] using hq
    omega
  cases s with
  | nan => rfl
  | inf => simp [PFloat.div, h0, PFloat.isSpecial]
  | ninf => simp [PFloat.div, h0, PFloat.isSpecial]
  | num a =>
    by_cases h1 : a.isZero <;> by_cases h2 : a.nm < 0 <;>
      simp [PFloat.div, hq, h1, h2, PFloat.isSpecial]

lemma stockChange_special (q : PyNum) (hq : q.isZero = true) (t : PFloat) :
    (stockChange (PFloat.num q) t).isSpecial = true :=
  mul100_special _ (divZero_special (t.sub (PFloat.num q)) q hq)

lemma specialDisplay_ne (x : PFloat) (hx : x.isSpecial = true) :
    changeDisplayStock x ≠ "N/A" := by
  cases x with
  | num q => simp [PFloat.isSpecial] at hx
  | inf => decide
  | ninf => decide
  | nan => decide

/-- The absent-column half of C3: the fetch returned at least one bar and
the most recent bar has no "Open" column. -/
def lastOpenAbsent (data : List (List (String × PFloat))) : Bool :=
  !data.isEmpty && (dlookup (data.getLastD []) "Open").isNone

/-- C3 (counterexample): with a zero opening value the stock fetch does NOT
yield the placeholder — float64 division by zero produces infinity without
raising, the fetch succeeds, and the change-rate cell renders the styled
number "inf%". -/
theorem spec_C3_counterexample :
    create_table_stock [fetch_ticker_stock "AAPL"
        [[("Open", PFloat.num ⟨0, 1⟩), ("Close", PFloat.num ⟨5, 1⟩),
          ("High", PFloat.num ⟨5, 1⟩), ("Low", PFloat.num ⟨0, 1⟩),
          ("Volume", PFloat.num ⟨1000, 1⟩)]]] =
      Except.ok [["AAPL", "0.00", "5.00", "[green dim]inf%[/green dim]", "1,000",
        "5.00", "0.00"]] := by decide

/-- C3 (amended): no division error ever reaches the caller, but the two
cases differ.  When the most recent bar's opening value is absent the
KeyError is caught, the fetch yields `none`, and the row (change-rate cell
included) is the all-placeholder row.  When the opening value is zero the
float64 division silently yields an IEEE special value (±inf or NaN): the
fetch succeeds, the change-rate cell renders that special value as a styled
number ("inf%", "-inf%" or "nan%"), and it is not the placeholder. -/
theorem spec_C3 :
    (∀ (symbol : String) (data : List (List (String × PFloat))),
      lastOpenAbsent data = true →
        fetch_ticker_stock symbol data = none ∧
        create_table_stock [fetch_ticker_stock symbol data] = Except.ok [naRow7]) ∧
    (∀ (symbol : String) (q : PyNum) (t hi lo vo : PFloat), q.isZero = true →
      fetch_ticker_stock symbol
          [[("Open", PFloat.num q), ("Close", t), ("High", hi), ("Low", lo),
            ("Volume", vo)]] =
        some (stockTicker symbol (PFloat.num q) t hi lo vo) ∧
      (stockChange (PFloat.num q) t).isSpecial = true ∧
      create_table_stock [some (stockTicker symbol (PFloat.num q) t hi lo vo)] =
        Except.ok [[symbol, fmtComma2F (PFloat.num q), fmtComma2F t,
          changeDisplayStock (stockChange (PFloat.num q) t),
          fmtComma0F vo, fmtComma2F hi, fmtComma2F lo]] ∧
      changeDisplayStock (stockChange (PFloat.num q) t) ≠ "N/A") := by
  constructor
  · intro symbol data habs
    rw [lastOpenAbsent, Bool.and_eq_true] at habs
    obtain ⟨hne, hnone⟩ := habs
    have hempty : data.isEmpty = false := by
      cases he : data.isEmpty with
      | false => rfl
      | true => rw [he] at hne; simp at hne
    have hopen : dlookup (data.getLastD []) "Open" = none :=
      Option.isNone_iff_eq_none.mp hnone
    have hfetch : fetch_ticker_stock symbol data = none := by
      unfold fetch_ticker_stock stockFetchBody
      rw [hempty]
      simp only [Bool.false_eq_true, if_false]
      cases ho : dlookup (data.getLastD []) "Open" with
      | none => rfl
      | some yv => rw [ho] at hopen; exact Option.noConfusion hopen
    exact ⟨hfetch, by rw [hfetch]; rfl⟩
  · intro symbol q t hi lo vo hq
    refine ⟨?_, stockChange_special q hq t, ?_,
      specialDisplay_ne _ (stockChange_special q hq t)⟩
    · simp [fetch_ticker_stock, stockFetchBody, dlookup, List.getLastD]
    · simp [create_table_stock, mapExcept, sget, dlookup, stockTicker, stockChangeCell,
        symCellS, stockPriceCell, stockVolumeCell, Except.map]

/-- Witness for C3: an absent Open column, and a zero Open with a positive
Close. -/
theorem spec_C3_witness :
    (fetch_ticker_stock "MSFT" [[("Close", PFloat.num ⟨5, 1⟩)]] = none ∧
     create_table_stock [fetch_ticker_stock "MSFT" [[("Close", PFloat.num ⟨5, 1⟩)]]] =
       Except.ok [naRow7]) ∧
    (fetch_ticker_stock "GOOG"
        [[("Open", PFloat.num ⟨0, 1⟩), ("Close", PFloat.num ⟨7, 1⟩),
          ("High", PFloat.num ⟨8, 1⟩), ("Low", PFloat.num ⟨0, 1⟩),
          ("Volume", PFloat.num ⟨500, 1⟩)]] =
      some (stockTicker "GOOG" (PFloat.num ⟨0, 1⟩) (PFloat.num ⟨7, 1⟩)
        (PFloat.num ⟨8, 1⟩) (PFloat.num ⟨0, 1⟩) (PFloat.num ⟨500, 1⟩)) ∧
     (stockChange (PFloat.num ⟨0, 1⟩) (PFloat.num ⟨7, 1⟩)).isSpecial = true ∧
     create_table_stock [some (stockTicker "GOOG" (PFloat.num ⟨0, 1⟩)
        (PFloat.num ⟨7, 1⟩) (PFloat.num ⟨8, 1⟩) (PFloat.num ⟨0, 1⟩)
        (PFloat.num ⟨500, 1⟩))] =
       Except.ok [["GOOG", fmtComma2F (PFloat.num ⟨0, 1⟩), fmtComma2F (PFloat.num ⟨7, 1⟩),
         changeDisplayStock (stockChange (PFloat.num ⟨0, 1⟩) (PFloat.num ⟨7, 1⟩)),
         fmtComma0F (PFloat.num ⟨500, 1⟩), fmtComma2F (PFloat.num ⟨8, 1⟩),
         fmtComma2F (PFloat.num ⟨0, 1⟩)]] ∧
     changeDisplayStock (stockChange (PFloat.num ⟨0, 1⟩) (PFloat.num ⟨7, 1⟩)) ≠ "N/A") :=
  ⟨spec_C3.1 "MSFT" [[("Close", PFloat.num ⟨5, 1⟩)]] (by decide),
   spec_C3.2 "GOOG" ⟨0, 1⟩ (PFloat.num ⟨7, 1⟩) (PFloat.num ⟨8, 1⟩) (PFloat.num ⟨0, 1⟩)
     (PFloat.num ⟨500, 1⟩) (by decide)⟩

lemma mapExcept_append_ok {α β : Type} (f : α → Except String β)
    (xs ys : List α) (us ws : List β)
    (hx : mapExcept f xs = Except.ok us) (hy : mapExcept f ys = Except.ok ws) :
    mapExcept f (xs ++ ys) = Except.ok (us ++ ws) := by
  induction xs generalizing us with
  | nil =>
    simp only [mapExcept] at hx
    injection hx with hx
    subst hx
    simpa using hy
  | cons a t ih =>
    rw [List.cons_append]
    simp only [mapExcept, List.append_eq] at hx ⊢
    cases hfa : f a with
    | error e => rw [hfa] at hx; simp at hx
    | ok b =>
      rw [hfa] at hx
      cases hmt : mapExcept f t with
      | error e => rw [hmt] at hx; simp at hx
      | ok bt =>
        rw [hmt] at hx
        simp only [Except.ok.injEq] at hx
        subst hx
        rw [ih bt hmt]
        rfl

lemma mapExcept_reverse_ok {α β : Type} (f : α → Except String β)
    (l : List α) (vs : List β) (h : mapExcept f l = Except.ok vs) :
    mapExcept f l.reverse = Except.ok vs.reverse := by
  induction l generalizing vs with
  | nil =>
    simp only [mapExcept] at h
    injection h with h
    subst h
    rfl
  | cons a t ih =>
    simp only [mapExcept] at h
    cases hfa : f a with
    | error e => rw [hfa] at h; simp at h
    | ok b =>
      rw [hfa] at h
      cases hmt : mapExcept f t with
      | error e => rw [hmt] at h; simp at h
      | ok bt =>
        rw [hmt] at h
        simp only [Except.ok.injEq] at h
        subst h
        have hrev := ih bt hmt
        have hsingle : mapExcept f [a] = Except.ok [b] := by
          simp only [mapExcept, hfa]
        rw [List.reverse_cons, List.reverse_cons]
        exact mapExcept_append_ok f t.reverse [a] bt.reverse [b] hrev hsingle

/-- C6: whenever every candle carries its closing price, the chart input of
`create_plot_graph_panel` is the reversal of the upstream newest-first
closing-price sequence — i.e. chronological order. -/
theorem spec_C6 (candles : List Json) (vals : List Value)
    (h : mapExcept tradePriceOf candles = Except.ok vals) :
    closing_prices candles = Except.ok vals.reverse :=
  mapExcept_reverse_ok tradePriceOf candles vals h

/-- Witness for C6: upstream closes [110, 95, 105, 100] (newest first) chart
as [100, 105, 95, 110] (chronological). -/
theorem spec_C6_witness :
    closing_prices
        [[("trade_price", Value.num ⟨110, 1⟩)], [("trade_price", Value.num ⟨95, 1⟩)],
         [("trade_price", Value.num ⟨105, 1⟩)], [("trade_price", Value.num ⟨100, 1⟩)]] =
      Except.ok [Value.num ⟨100, 1⟩, Value.num ⟨105, 1⟩, Value.num ⟨95, 1⟩,
        Value.num ⟨110, 1⟩] := by
  have h := spec_C6
    [[("trade_price", Value.num ⟨110, 1⟩)], [("trade_price", Value.num ⟨95, 1⟩)],
     [("trade_price", Value.num ⟨105, 1⟩)], [("trade_price", Value.num ⟨100, 1⟩)]]
    [Value.num ⟨110, 1⟩, Value.num ⟨95, 1⟩, Value.num ⟨105, 1⟩, Value.num ⟨100, 1⟩]
    (by decide)
  rw [h]
  rfl

/-- C8: when the Series for a (symbol, timeframe) pair is absent the panel
content is exactly the literal no-data placeholder — independent of the
chart renderer, so no chart is drawn — and only a present Series has its
extracted closing prices rendered through the chart function. -/
theorem spec_C8 (plot : List Value → ℕ → ℕ → String)
    (symbol timeframe : String) (width height : ℕ) :
    create_plot_graph_panel plot symbol timeframe none width height =
      Except.ok ⟨"데이터 없음", symbol ++ " - " ++ timeframe, "blue"⟩ ∧
    (∀ candles closes, closing_prices candles = Except.ok closes →
      create_plot_graph_panel plot symbol timeframe (some candles) width height =
        Except.ok ⟨create_plotille_line_chart plot closes width height,
          symbol ++ " - " ++ timeframe, "blue"⟩) := by
  refine ⟨rfl, ?_⟩
  intro candles closes h
  show Except.map _ (closing_prices candles) = _
  rw [h]
  rfl

/-- Witness for C8 with a one-candle Series and an opaque chart renderer. -/
theorem spec_C8_witness :
    create_plot_graph_panel (fun _ _ _ => "CHART") "KRW-BTC" "1H" none 60 20 =
      Except.ok ⟨"데이터 없음", "KRW-BTC" ++ " - " ++ "1H", "blue"⟩ ∧
    create_plot_graph_panel (fun _ _ _ => "CHART") "KRW-BTC" "1H"
        (some [[("trade_price", Value.num ⟨100, 1⟩)]]) 60 20 =
      Except.ok ⟨"CHART", "KRW-BTC" ++ " - " ++ "1H", "blue"⟩ := by
  constructor
  · exact (spec_C8 (fun _ _ _ => "CHART") "KRW-BTC" "1H" 60 20).1
  · have h := (spec_C8 (fun _ _ _ => "CHART") "KRW-BTC" "1H" 60 20).2
      [[("trade_price", Value.num ⟨100, 1⟩)]] [Value.num ⟨100, 1⟩] (by decide)
    rw [h]
    rfl

lemma find_gatherEvents {α : Type} (tasks : List α) (order : List ℕ) (i : ℕ)
    (hi : i ∈ order) (hlt : ∀ j ∈ order, j < tasks.length) :
    ∃ a, tasks[i]? = some a ∧
      (gatherEvents tasks order).find? (fun e => e.1 == i) = some (i, a) := by
  induction order with
  | nil => cases hi
  | cons j rest ih =>
    have hj : j < tasks.length := hlt j (List.mem_cons_self _ _)
    obtain ⟨aj, haj⟩ : ∃ aj, tasks[j]? = some aj := by
      rw [List.getElem?_eq_getElem hj]
      exact ⟨_, rfl⟩
    have hevents : gatherEvents tasks (j :: rest) = (j, aj) :: gatherEvents tasks rest := by
      simp [gatherEvents, haj]
    by_cases hji : j = i
    · subst hji
      refine ⟨aj, haj, ?_⟩
      rw [hevents]
      simp [List.find?]
    · have hir : i ∈ rest := by
        rcases List.mem_cons.mp hi with h1 | h1
        · exact absurd h1.symm hji
        · exact h1
      obtain ⟨a, ha, hfind⟩ := ih hir (fun j' hj' => hlt j' (List.mem_cons_of_mem _ hj'))
      refine ⟨a, ha, ?_⟩
      rw [hevents, List.find?_cons_of_neg, hfind]
      simp [hji]

lemma collect_gather {α : Type} (tasks : List α) (order : List ℕ)
    (hperm : order.Perm (List.range tasks.length)) :
    collectByIndex tasks.length (gatherEvents tasks order) = tasks.map some := by
  apply List.ext_getElem?
  intro n
  unfold collectByIndex
  by_cases hn : n < tasks.length
  · have hi : n ∈ order := hperm.mem_iff.mpr (List.mem_range.mpr hn)
    have hlt : ∀ j ∈ order, j < tasks.length := fun j hj =>
      List.mem_range.mp (hperm.mem_iff.mp hj)
    obtain ⟨a, ha, hfind⟩ := find_gatherEvents tasks order n hi hlt
    rw [List.getElem?_map, List.getElem?_range hn, List.getElem?_map, ha]
    simp [hfind]
  · rw [List.getElem?_eq_none, List.getElem?_eq_none]
    · simpa using Nat.le_of_not_lt hn
    · simpa using Nat.le_of_not_lt hn

/-- C1: `fetch_all_tickers` returns one entry per symbol, the i-th entry
being the fetch outcome for the i-th symbol, and slotting the completion
events of the task batch by index yields exactly this list for every
completion order (any permutation of the task indices) and any pattern of
per-symbol failures (`fetch` may return `none` for any symbol). -/
theorem spec_C1 (fetch : String → Option Json) (symbols : List String) (order : List ℕ)
    (hperm : order.Perm (List.range symbols.length)) :
    (fetch_all_tickers fetch symbols).length = symbols.length ∧
    (∀ i : ℕ, (fetch_all_tickers fetch symbols)[i]? = (symbols[i]?).map fetch) ∧
    collectByIndex symbols.length (gatherEvents (symbols.map fetch) order) =
      (fetch_all_tickers fetch symbols).map some := by
  refine ⟨List.length_map _ _, fun i => List.getElem?_map _ _ _, ?_⟩
  have h := collect_gather (symbols.map fetch) order (by simpa using hperm)
  simpa [fetch_all_tickers] using h

/-- Witness for C1: three symbols, completion order [2, 0, 1], middle and
last fetches failing. -/
theorem spec_C1_witness :
    ([2, 0, 1] : List ℕ).Perm
        (List.range (["KRW-BTC", "KRW-ETH", "KRW-XRP"] : List String).length) ∧
    ((fetch_all_tickers
        (fun s => if s = "KRW-BTC" then some [("market", Value.str "KRW-BTC")] else none)
        ["KRW-BTC", "KRW-ETH", "KRW-XRP"]).length =
      (["KRW-BTC", "KRW-ETH", "KRW-XRP"] : List String).length ∧
    (∀ i : ℕ, (fetch_all_tickers
        (fun s => if s = "KRW-BTC" then some [("market", Value.str "KRW-BTC")] else none)
        ["KRW-BTC", "KRW-ETH", "KRW-XRP"])[i]? =
      ((["KRW-BTC", "KRW-ETH", "KRW-XRP"] : List String)[i]?).map
        (fun s => if s = "KRW-BTC" then some [("market", Value.str "KRW-BTC")] else none)) ∧
    collectByIndex (["KRW-BTC", "KRW-ETH", "KRW-XRP"] : List String).length
        (gatherEvents ((["KRW-BTC", "KRW-ETH", "KRW-XRP"] : List String).map
          (fun s => if s = "KRW-BTC" then some [("market", Value.str "KRW-BTC")] else none))
          [2, 0, 1]) =
      (fetch_all_tickers
        (fun s => if s = "KRW-BTC" then some [("market", Value.str "KRW-BTC")] else none)
        ["KRW-BTC", "KRW-ETH", "KRW-XRP"]).map some) :=
  ⟨by decide,
   spec_C1 (fun s => if s = "KRW-BTC" then some [("market", Value.str "KRW-BTC")] else none)
     ["KRW-BTC", "KRW-ETH", "KRW-XRP"] [2, 0, 1] (by decide)⟩

lemma dlookup_dinsert_self {α : Type} (d : List (String × α)) (k : String) (v : α) :
    dlookup (dinsert d k v) k = some v := by
  induction d with
  | nil => simp [dinsert, dlookup]
  | cons p rest ih =>
    obtain ⟨pk, pv⟩ := p
    by_cases h : pk = k
    · simp [dinsert, h, dlookup]
    · simp [dinsert, h, dlookup, ih]

lemma dlookup_dinsert_ne {α : Type} (d : List (String × α)) {k k' : String}
    (h : k' ≠ k) (v : α) : dlookup (dinsert d k v) k' = dlookup d k' := by
  have hk : ¬(k = k') := fun he => h he.symm
  induction d with
  | nil => simp [dinsert, dlookup, hk]
  | cons p rest ih =>
    obtain ⟨pk, pv⟩ := p
    by_cases hp : pk = k
    · subst hp
      simp [dinsert, dlookup, hk]
    · simp [dinsert, hp, dlookup, ih]

lemma dlookup_setInner_self {β : Type} (d : List (String × List (String × β)))
    (s k : String) (v : β) :
    dlookup (setInner d s k v) s = (dlookup d s).map (fun inner => dinsert inner k v) := by
  induction d with
  | nil => rfl
  | cons p rest ih =>
    obtain ⟨pk, pinner⟩ := p
    simp only [setInner] at ih ⊢
    by_cases hp : pk = s
    · subst hp
      simp [dlookup]
    · simp [dlookup, hp, ih]

lemma dlookup_setInner_ne {β : Type} (d : List (String × List (String × β)))
    {s s' : String} (h : s' ≠ s) (k : String) (v : β) :
    dlookup (setInner d s k v) s' = dlookup d s' := by
  induction d with
  | nil => rfl
  | cons p rest ih =>
    obtain ⟨pk, pinner⟩ := p
    simp only [setInner] at ih ⊢
    by_cases hp : pk = s
    · subst hp
      have hps : ¬(pk = s') := fun he => h he.symm
      simp [dlookup, hps, ih]
    · by_cases hp2 : pk = s'
      · simp [dlookup, hp, hp2, h]
      · simp [dlookup, hp, hp2, ih]

lemma dlookup_foldl_dinsert {β : Type} (syms : List String)
    (d : List (String × List (String × β))) (s : String) :
    dlookup (syms.foldl (fun d s => dinsert d s []) d) s =
      if s ∈ syms then some [] else dlookup d s := by
  induction syms generalizing d with
  | nil => simp
  | cons s0 rest ih =>
    rw [List.foldl_cons, ih]
    by_cases hs : s ∈ rest
    · simp [hs, List.mem_cons]
    · by_cases he : s = s0
      · subst he
        simp [hs, dlookup_dinsert_self]
      · simp [hs, he, List.mem_cons, dlookup_dinsert_ne _ he]

lemma dlookup_initOuter (symbols : List String) (s : String) :
    dlookup (initOuter symbols) s = if s ∈ symbols then some [] else none := by
  unfold initOuter
  rw [dlookup_foldl_dinsert]
  rfl

lemma fetch_all_candles_eq (fetch : String → ℕ → ℕ → Option (List Json))
    (symbols : List String) (timeframes : List Timeframe) :
    fetch_all_candles fetch symbols timeframes =
      assignRun fetch timeframes symbols (initOuter symbols) := by
  unfold fetch_all_candles assignRun assignPass
  generalize initOuter symbols = d
  induction symbols generalizing d with
  | nil => rfl
  | cons s rest ih =>
    rw [List.flatMap_cons, List.foldl_append, List.foldl_cons, List.foldl_map, ih]

/-- The inner-dict transformation one symbol's slice of the assignment loop
applies: insert one binding per timeframe, in order. -/
def passInner (fetch : String → ℕ → ℕ → Option (List Json)) (timeframes : List Timeframe)
    (s : String) (inner : List (String × Option (List Json))) :
    List (String × Option (List Json)) :=
  timeframes.foldl (fun acc tf => dinsert acc tf.name (fetch s tf.unit tf.count)) inner

lemma assignPass_cons (fetch : String → ℕ → ℕ → Option (List Json)) (tf : Timeframe)
    (tfs : List Timeframe) (s : String)
    (d : List (String × List (String × Option (List Json)))) :
    assignPass fetch (tf :: tfs) s d =
      assignPass fetch tfs s (setInner d s tf.name (fetch s tf.unit tf.count)) := rfl

lemma passInner_cons (fetch : String → ℕ → ℕ → Option (List Json)) (tf : Timeframe)
    (tfs : List Timeframe) (s : String) (inner : List (String × Option (List Json))) :
    passInner fetch (tf :: tfs) s inner =
      passInner fetch tfs s (dinsert inner tf.name (fetch s tf.unit tf.count)) := rfl

lemma assignRun_cons (fetch : String → ℕ → ℕ → Option (List Json)) (tfs : List Timeframe)
    (s0 : String) (syms : List String)
    (d : List (String × List (String × Option (List Json)))) :
    assignRun fetch tfs (s0 :: syms) d =
      assignRun fetch tfs syms (assignPass fetch tfs s0 d) := rfl

lemma assignPass_lookup_self (fetch : String → ℕ → ℕ → Option (List Json))
    (tfs : List Timeframe) (s : String)
    (d : List (String × List (String × Option (List Json)))) :
    dlookup (assignPass fetch tfs s d) s =
      (dlookup d s).map (passInner fetch tfs s) := by
  induction tfs generalizing d with
  | nil => cases ho : dlookup d s <;> simp [assignPass, passInner, ho]
  | cons tf rest ih =>
    rw [assignPass_cons, ih, dlookup_setInner_self]
    cases ho : dlookup d s <;> simp [ho, passInner_cons]

lemma assignPass_lookup_ne (fetch : String → ℕ → ℕ → Option (List Json))
    (tfs : List Timeframe) {s s0 : String} (h : s ≠ s0)
    (d : List (String × List (String × Option (List Json)))) :
    dlookup (assignPass fetch tfs s0 d) s = dlookup d s := by
  induction tfs generalizing d with
  | nil => rfl
  | cons tf rest ih =>
    rw [assignPass_cons, ih, dlookup_setInner_ne _ h]

lemma passInner_lookup_notmem (fetch : String → ℕ → ℕ → Option (List Json))
    (tfs : List Timeframe) (s : String) {nm : String}
    (h : nm ∉ tfs.map Timeframe.name) (inner : List (String × Option (List Json))) :
    dlookup (passInner fetch tfs s inner) nm = dlookup inner nm := by
  induction tfs generalizing inner with
  | nil => rfl
  | cons tf rest ih =>
    rw [List.map_cons] at h
    have h1 : nm ≠ tf.name := fun he => h (by rw [he]; exact List.mem_cons_self _ _)
    have h2 : nm ∉ rest.map Timeframe.name := fun hm => h (List.mem_cons_of_mem _ hm)
    rw [passInner_cons, ih h2, dlookup_dinsert_ne _ h1]

lemma passInner_lookup_mem (fetch : String → ℕ → ℕ → Option (List Json))
    (tfs : List Timeframe) (s : String)
    (hnd : (tfs.map Timeframe.name).Nodup) {tf : Timeframe} (htf : tf ∈ tfs)
    (inner : List (String × Option (List Json))) :
    dlookup (passInner fetch tfs s inner) tf.name = some (fetch s tf.unit tf.count) := by
  induction tfs generalizing inner with
  | nil => cases htf
  | cons tf0 rest ih =>
    rw [List.map_cons, List.nodup_cons] at hnd
    rcases List.mem_cons.mp htf with h1 | h1
    · subst h1
      rw [passInner_cons, passInner_lookup_notmem fetch rest s hnd.1, dlookup_dinsert_self]
    · rw [passInner_cons]
      exact ih hnd.2 h1 _

lemma passInner_keys (fetch : String → ℕ → ℕ → Option (List Json))
    (tfs : List Timeframe) (s : String) (nm : String)
    (inner : List (String × Option (List Json)))
    (h : (dlookup (passInner fetch tfs s inner) nm).isSome = true) :
    nm ∈ tfs.map Timeframe.name ∨ (dlookup inner nm).isSome = true := by
  induction tfs generalizing inner with
  | nil => exact Or.inr h
  | cons tf rest ih =>
    rw [passInner_cons] at h
    rcases ih _ h with hmem | hsome
    · exact Or.inl (List.mem_cons_of_mem _ hmem)
    · by_cases hn : nm = tf.name
      · exact Or.inl (by rw [List.map_cons, hn]; exact List.mem_cons_self _ _)
      · rw [dlookup_dinsert_ne _ hn] at hsome
        exact Or.inr hsome

lemma assignPass_isSome (fetch : String → ℕ → ℕ → Option (List Json))
    (tfs : List Timeframe) (s s0 : String)
    (d : List (String × List (String × Option (List Json)))) :
    (dlookup (assignPass fetch tfs s0 d) s).isSome = (dlookup d s).isSome := by
  by_cases h : s = s0
  · subst h
    rw [assignPass_lookup_self]
    cases dlookup d s <;> simp
  · rw [assignPass_lookup_ne fetch tfs h]

lemma assignRun_isSome (fetch : String → ℕ → ℕ → Option (List Json))
    (tfs : List Timeframe) (syms : List String) (s : String)
    (d : List (String × List (String × Option (List Json)))) :
    (dlookup (assignRun fetch tfs syms d) s).isSome = (dlookup d s).isSome := by
  induction syms generalizing d with
  | nil => rfl
  | cons s0 rest ih =>
    rw [assignRun_cons, ih, assignPass_isSome]

/-- The per-symbol correctness target: the inner dict binds every timeframe
name to the fetch outcome of that exact (symbol, timeframe) pair. -/
def innerGood (fetch : String → ℕ → ℕ → Option (List Json)) (tfs : List Timeframe)
    (s : String) (inner : List (String × Option (List Json))) : Prop :=
  ∀ tf ∈ tfs, dlookup inner tf.name = some (fetch s tf.unit tf.count)

/-- Invariant: every inner dict present in the outer dict binds only
timeframe names. -/
def outerContained (tfs : List Timeframe)
    (d : List (String × List (String × Option (List Json)))) : Prop :=
  ∀ s inner, dlookup d s = some inner →
    ∀ nm, (dlookup inner nm).isSome = true → nm ∈ tfs.map Timeframe.name

lemma assignPass_good_self (fetch : String → ℕ → ℕ → Option (List Json))
    (tfs : List Timeframe) (hnd : (tfs.map Timeframe.name).Nodup) (s : String)
    (d : List (String × List (String × Option (List Json))))
    (hs : (dlookup d s).isSome = true) :
    ∃ inner, dlookup (assignPass fetch tfs s d) s = some inner ∧
      innerGood fetch tfs s inner := by
  rw [assignPass_lookup_self]
  cases ho : dlookup d s with
  | none => rw [ho] at hs; simp at hs
  | some inner0 =>
    exact ⟨passInner fetch tfs s inner0, rfl,
      fun tf htf => passInner_lookup_mem fetch tfs s hnd htf inner0⟩

lemma assignPass_good_other (fetch : String → ℕ → ℕ → Option (List Json))
    (tfs : List Timeframe) {s s0 : String} (h : s ≠ s0)
    (d : List (String × List (String × Option (List Json))))
    (hg : ∃ inner, dlookup d s = some inner ∧ innerGood fetch tfs s inner) :
    ∃ inner, dlookup (assignPass fetch tfs s0 d) s = some inner ∧
      innerGood fetch tfs s inner := by
  rw [assignPass_lookup_ne fetch tfs h]
  exact hg

lemma assignRun_preserves_good (fetch : String → ℕ → ℕ → Option (List Json))
    (tfs : List Timeframe) (hnd : (tfs.map Timeframe.name).Nodup)
    (syms : List String) (s : String) :
    ∀ d, (∃ inner, dlookup d s = some inner ∧ innerGood fetch tfs s inner) →
      ∃ inner, dlookup (assignRun fetch tfs syms d) s = some inner ∧
        innerGood fetch tfs s inner := by
  induction syms with
  | nil => exact fun d hg => hg
  | cons s0 rest ih =>
    intro d hg
    rw [assignRun_cons]
    apply ih
    by_cases h : s = s0
    · subst h
      obtain ⟨inner, hlk, _⟩ := hg
      exact assignPass_good_self fetch tfs hnd s d (by rw [hlk]; rfl)
    · exact assignPass_good_other fetch tfs h d hg

lemma assignRun_good (fetch : String → ℕ → ℕ → Option (List Json))
    (tfs : List Timeframe) (hnd : (tfs.map Timeframe.name).Nodup)
    (syms : List String) (s : String) :
    ∀ d, s ∈ syms → (dlookup d s).isSome = true →
      ∃ inner, dlookup (assignRun fetch tfs syms d) s = some inner ∧
        innerGood fetch tfs s inner := by
  induction syms with
  | nil => intro d hs; cases hs
  | cons s0 rest ih =>
    intro d hs hsome
    rw [assignRun_cons]
    rcases List.mem_cons.mp hs with h1 | h1
    · subst h1
      exact assignRun_preserves_good fetch tfs hnd rest s _
        (assignPass_good_self fetch tfs hnd s d hsome)
    · exact ih _ h1 (by rw [assignPass_isSome]; exact hsome)

lemma assignPass_contained (fetch : String → ℕ → ℕ → Option (List Json))
    (tfs : List Timeframe) (s0 : String)
    (d : List (String × List (String × Option (List Json))))
    (hc : outerContained tfs d) : outerContained tfs (assignPass fetch tfs s0 d) := by
  intro s inner hlk nm hnm
  by_cases hss : s = s0
  · subst hss
    rw [assignPass_lookup_self] at hlk
    cases ho : dlookup d s with
    | none => rw [ho] at hlk; simp at hlk
    | some inner0 =>
      rw [ho] at hlk
      simp only [Option.map_some'] at hlk
      injection hlk with hlk
      subst hlk
      rcases passInner_keys fetch tfs s nm inner0 hnm with hmem | hsome
      · exact hmem
      · exact hc s inner0 ho nm hsome
  · rw [assignPass_lookup_ne fetch tfs hss] at hlk
    exact hc s inner hlk nm hnm

lemma assignRun_contained (fetch : String → ℕ → ℕ → Option (List Json))
    (tfs : List Timeframe) (syms : List String) :
    ∀ d, outerContained tfs d → outerContained tfs (assignRun fetch tfs syms d) := by
  induction syms with
  | nil => exact fun d hc => hc
  | cons s0 rest ih =>
    intro d hc
    rw [assignRun_cons]
    exact ih _ (assignPass_contained fetch tfs s0 d hc)

lemma initOuter_contained (tfs : List Timeframe) (symbols : List String) :
    outerContained tfs (initOuter symbols) := by
  intro s inner hlk nm hnm
  rw [dlookup_initOuter] at hlk
  by_cases hs : s ∈ symbols
  · rw [if_pos hs] at hlk
    injection hlk with hlk
    subst hlk
    cases hnm
  · rw [if_neg hs] at hlk
    cases hlk

/-- C10 (implicit): for pairwise-distinct timeframe names,
`fetch_all_candles` produces an outer mapping whose keys are exactly the
symbols, and for each symbol an inner mapping whose keys are exactly the
timeframe names, each bound to the fetch outcome (possibly `none`) for that
exact (symbol, timeframe) pair — the key structure is present even when
every fetch fails, since `fetch` is arbitrary and may always return
`none`. -/
theorem spec_C10 (fetch : String → ℕ → ℕ → Option (List Json))
    (symbols : List String) (timeframes : List Timeframe)
    (hnd : (timeframes.map Timeframe.name).Nodup) :
    (∀ s, (dlookup (fetch_all_candles fetch symbols timeframes) s).isSome = true ↔
      s ∈ symbols) ∧
    (∀ s inner, dlookup (fetch_all_candles fetch symbols timeframes) s = some inner →
      (∀ tf ∈ timeframes, dlookup inner tf.name = some (fetch s tf.unit tf.count)) ∧
      (∀ nm, (dlookup inner nm).isSome = true ↔ nm ∈ timeframes.map Timeframe.name)) := by
  rw [fetch_all_candles_eq]
  have hkey : ∀ s,
      (dlookup (assignRun fetch timeframes symbols (initOuter symbols)) s).isSome = true ↔
        s ∈ symbols := by
    intro s
    rw [assignRun_isSome, dlookup_initOuter]
    by_cases hs : s ∈ symbols <;> simp [hs]
  refine ⟨hkey, ?_⟩
  intro s inner hlk
  have hs : s ∈ symbols := (hkey s).mp (by rw [hlk]; rfl)
  have hinit : (dlookup (initOuter symbols) s).isSome = true := by
    rw [dlookup_initOuter, if_pos hs]
    rfl
  obtain ⟨inner2, hlk2, hgood⟩ :=
    assignRun_good fetch timeframes hnd symbols s (initOuter symbols) hs hinit
  rw [hlk] at hlk2
  injection hlk2 with hlk2
  subst hlk2
  refine ⟨hgood, fun nm => ⟨?_, ?_⟩⟩
  · intro hnm
    exact assignRun_contained fetch timeframes symbols (initOuter symbols)
      (initOuter_contained timeframes symbols) s inner hlk nm hnm
  · intro hnm
    obtain ⟨tf, htf, hname⟩ := List.mem_map.mp hnm
    rw [← hname, hgood tf htf]
    rfl

/-- Witness for C10: two symbols, two distinct-named timeframes, the
15-minute fetches failing. -/
theorem spec_C10_witness :
    ((([⟨"1H", 60, 60⟩, ⟨"15M", 15, 60⟩] : List Timeframe)).map Timeframe.name).Nodup ∧
    ((∀ s, (dlookup (fetch_all_candles
        (fun _ u _ => if u = 60 then some [[("trade_price", Value.num ⟨1, 1⟩)]] else none)
        ["KRW-BTC", "KRW-ETH"] [⟨"1H", 60, 60⟩, ⟨"15M", 15, 60⟩]) s).isSome = true ↔
      s ∈ ["KRW-BTC", "KRW-ETH"]) ∧
    (∀ s inner, dlookup (fetch_all_candles
        (fun _ u _ => if u = 60 then some [[("trade_price", Value.num ⟨1, 1⟩)]] else none)
        ["KRW-BTC", "KRW-ETH"] [⟨"1H", 60, 60⟩, ⟨"15M", 15, 60⟩]) s = some inner →
      (∀ tf ∈ ([⟨"1H", 60, 60⟩, ⟨"15M", 15, 60⟩] : List Timeframe),
        dlookup inner tf.name =
          some ((fun _ u _ => if u = 60 then some [[("trade_price", Value.num ⟨1, 1⟩)]]
            else none) s tf.unit tf.count)) ∧
      (∀ nm, (dlookup inner nm).isSome = true ↔
        nm ∈ ([⟨"1H", 60, 60⟩, ⟨"15M", 15, 60⟩] : List Timeframe).map Timeframe.name))) :=
  ⟨by decide,
   spec_C10 (fun _ u _ => if u = 60 then some [[("trade_price", Value.num ⟨1, 1⟩)]] else none)
     ["KRW-BTC", "KRW-ETH"] [⟨"1H", 60, 60⟩, ⟨"15M", 15, 60⟩] (by decide)⟩
